import Mathlib

/-!
Verification development for the n8n toolkit scripts
(src/skills/n8n-expert/scripts/execution-manager.py and
src/skills/n8n-expert/scripts/workflow-crud.py).

The Python sources are shallowly embedded: JSON records become structures
with Option fields (a missing key is none), Python dictionaries keyed by
node name become association lists in insertion order, and raised
exceptions become Option or distinguished result constructors.

Time model: Python datetime values have microsecond resolution, so the
difference stop - start is an exact whole number of microseconds.  The
source converts it to a float with total_seconds() and compares it with
1 and 60; here the same computation is carried out exactly over the
integers at microsecond scale (1 s = 1000000 us).  At microsecond
granularity the float comparisons of the source agree with the exact
ones, and each rendered digit is modelled by the exact integer
computation that the float arithmetic approximates.
-/

namespace N8n

/-- Python truthiness of an optional string, as used by the guard
`if not start or not stop` in format_duration: None and the empty
string are falsy. -/
def pyTruthy : Option String → Bool
  | none => false
  | some s => !s.isEmpty

/-- Model of the Python expression s.replace(c, r) for a single-character
pattern, used as s.replace('Z', '+00:00') before parsing: every
occurrence of the character is replaced. -/
def replaceChar (s : String) (c : Char) (r : String) : String :=
  String.mk (s.data.flatMap (fun x => if x = c then r.data else [x]))

/-- Model of the Python slice s[:n], which slices by characters. -/
def strTake (s : String) (n : Nat) : String :=
  String.mk (s.data.take n)

/-- Embedding of the tier rendering inside format_duration
(execution-manager.py lines 84-92), applied to the elapsed time in
microseconds.  int() truncates toward zero, hence Int.div in the first
tier (the only one reachable with a negative difference); the one-decimal
format string is modelled as half-up rounding to deciseconds, and the
floor divisions of the source are euclidean divisions on the
nonnegative values of their tiers. -/
def formatDelta (micros : ℤ) : String :=
  if micros < 1000000 then
    toString (Int.tdiv micros 1000) ++ "ms"
  else if micros < 60000000 then
    let deci : ℤ := (micros + 50000) / 100000
    toString (deci / 10) ++ "." ++ toString (deci % 10) ++ "s"
  else
    toString (micros / 60000000) ++ "m " ++ toString ((micros / 1000000) % 60) ++ "s"

/-- Embedding of format_duration (execution-manager.py lines 76-94).
The call to datetime.fromisoformat is a library function, so it is a
parameter: parseIso returns the moment denoted by the string, in
microseconds since the epoch, or none when fromisoformat raises
ValueError.  The except branch of the source maps any parse failure to
the placeholder. -/
def format_duration (parseIso : String → Option ℤ)
    (start stop : Option String) : String :=
  if !pyTruthy start || !pyTruthy stop then "N/A"
  else
    match parseIso (replaceChar (start.getD "") 'Z' "+00:00"),
          parseIso (replaceChar (stop.getD "") 'Z' "+00:00") with
    | some a, some b => formatDelta (b - a)
    | _, _ => "N/A"

/-- Embedding of format_timestamp (execution-manager.py lines 69-73). -/
def format_timestamp (ts : Option String) : String :=
  match ts with
  | none => "N/A"
  | some s => if s.isEmpty then "N/A" else replaceChar (strTake s 19) 'T' " "

/-- Generic JSON value, the shape of every record the scripts consume. -/
inductive Json where
  | null : Json
  | bool : Bool → Json
  | num : ℤ → Json
  | str : String → Json
  | arr : List Json → Json
  | obj : List (String × Json) → Json

/-- One recorded attempt of a node inside the runData mapping of an
execution result.  The fields are the keys that cmd_debug reads:
executionTime (defaulted to 0 when absent), the presence of an error
key, and the output branches under data.main. -/
structure NodeAttempt where
  executionTime : Option ℤ
  hasError : Bool
  mainOutput : Option (List (List Json))

/-- Embedding of the output item counter of cmd_debug
(execution-manager.py lines 194-198): items_out starts at 0, and when
the main output is truthy every truthy branch contributes its length. -/
def count_items_out (main : Option (List (List Json))) : ℕ :=
  match main with
  | none => 0
  | some branches =>
    if branches.isEmpty then 0
    else branches.foldl (fun acc b => if b.isEmpty then acc else acc + b.length) 0

/-- Embedding of the node_times accumulation of cmd_debug
(execution-manager.py lines 184-188): runData is a dictionary in
insertion order; every node whose attempt list is truthy contributes the
triple of its name, the executionTime of its first attempt defaulted to
0, and that first attempt. -/
def node_times (runData : List (String × List NodeAttempt)) :
    List (String × ℤ × NodeAttempt) :=
  runData.filterMap (fun p =>
    match p.2 with
    | [] => none
    | a :: _ => some (p.1, a.executionTime.getD 0, a))

/-- Embedding of the sort of cmd_debug (execution-manager.py line 190):
node_times.sort with key x[0] is a stable sort by node name, comparing
strings as Python does, lexicographically on their code points; Python
timsort is modelled by insertion sort, which is also stable. -/
def sorted_node_times (runData : List (String × List NodeAttempt)) :
    List (String × ℤ × NodeAttempt) :=
  (node_times runData).insertionSort (fun x y => x.1.data ≤ y.1.data)

/-- An execution record as the list and stats commands read it: every
field is a key that may be absent from the JSON payload. -/
structure ExecutionRec where
  id : Option String
  status : Option String
  workflowId : Option String
  startedAt : Option String
  stoppedAt : Option String

/-- Embedding of ex.get with the default used throughout cmd_list,
cmd_stats and cmd_watch: a missing status reads as unknown. -/
def statusOf (ex : ExecutionRec) : String := ex.status.getD "unknown"

/-- Embedding of the status_counts dictionary of cmd_stats
(execution-manager.py lines 266-272): the count of a status is the
number of executions whose defaulted status equals it. -/
def status_count (execs : List ExecutionRec) (s : String) : ℕ :=
  (execs.map statusOf).count s

/-- Embedding of the success-rate block of cmd_stats
(execution-manager.py lines 296-300): the figure is printed only when
success + error is positive, and equals success / (success + error)
scaled to a percentage. none models the omitted figure. -/
def success_rate (execs : List ExecutionRec) : Option ℚ :=
  if status_count execs "success" + status_count execs "error" > 0 then
    some ((status_count execs "success" : ℚ) /
      ((status_count execs "success" : ℚ) + (status_count execs "error" : ℚ)) * 100)
  else none

/-- A workflow record as format_workflow reads it: every field is a key
that may be absent from the JSON payload. -/
structure WorkflowRec where
  id : Option String
  name : Option String
  active : Option Bool
  nodes : Option (List Json)

/-- Embedding of the non-verbose branch of format_workflow
(workflow-crud.py lines 131-138).  active and nodes are read with .get
and default, but the f-string indexes workflow with id and name
directly, so a record missing either raises KeyError: that is the none
result.  The verbose branch is a plain JSON dump of the whole record
and touches no individual field. -/
def format_workflow (w : WorkflowRec) : Option String :=
  match w.id, w.name with
  | some wid, some wname =>
    some ("[" ++ wid ++ "] " ++ (if w.active.getD false then "✓" else "✗")
      ++ " " ++ wname ++ " (" ++ toString (w.nodes.getD []).length ++ " nodes)")
  | _, _ => none

/-- Embedding of the status_icons lookup with default of cmd_list
(execution-manager.py lines 105-111 and 118). -/
def statusIcon (s : String) : String :=
  if s = "success" then "✓"
  else if s = "error" then "✗"
  else if s = "waiting" then "⏳"
  else if s = "running" then "▶"
  else if s = "unknown" then "?"
  else "?"

/-- Embedding of one row printed by cmd_list (execution-manager.py lines
116-122).  Every field except id is read with .get and a default; the
f-string indexes ex with id directly, so a record missing id raises
KeyError: that is the none result.  The fixed-width column padding of
the f-string is rendered as single spaces, which does not affect which
fields are read. -/
def cmd_list_row (parseIso : String → Option ℤ) (ex : ExecutionRec) :
    Option String :=
  match ex.id with
  | none => none
  | some i =>
    some (i ++ " " ++ statusIcon (statusOf ex) ++ " " ++ statusOf ex ++ " "
      ++ ex.workflowId.getD "N/A" ++ " " ++ format_timestamp ex.startedAt ++ " "
      ++ format_duration parseIso ex.startedAt ex.stoppedAt)

/-- An HTTP response as the requests library yields it to the scripts:
status code, the parsed JSON body when the body parses (none when
response.json() would raise), and the raw text. -/
structure Response where
  status : ℕ
  jsonBody : Option Json
  text : String

/-- Outcome of an operation routed through a client request helper:
either the returned JSON value, or sys.exit(1) carrying the reported
error and, when a response was attached, the reported body (its JSON
when parsable, its text otherwise). -/
inductive ReqResult where
  | ok : Json → ReqResult
  | exit1 : String → Option (Json ⊕ String) → ReqResult

/-- Outcome of trigger_webhook, which has no handler of its own: either
the value it returns to its caller, or an exception propagating out of
requests.post (which the crud entry point does not catch, aborting the
invocation with a traceback). -/
inductive TriggerResult where
  | ok : Json → TriggerResult
  | uncaught : String → TriggerResult

/-- Embedding of N8nClient._request (workflow-crud.py lines 39-53).
The transport argument stands for the single session.request call: a
network failure or the response it produced.  raise_for_status raises
for the 4xx and 5xx ranges; the except branch prints the error together
with the JSON or text body of the attached response and exits with
status 1.  On success the body is the parsed JSON, or an empty object
when the response text is empty; a nonempty unparsable body raises a
JSONDecodeError, also a RequestException, hence also fatal. -/
def N8nClient_request (transport : Except String Response) : ReqResult :=
  match transport with
  | .error msg => .exit1 msg none
  | .ok r =>
    if 400 ≤ r.status ∧ r.status < 600 then
      .exit1 ("HTTP " ++ toString r.status)
        (some (match r.jsonBody with
          | some j => Sum.inl j
          | none => Sum.inr r.text))
    else if r.text = "" then .ok (Json.obj [])
    else
      match r.jsonBody with
      | some j => .ok j
      | none => .exit1 "JSONDecodeError" none

/-- Embedding of ExecutionManager._get (execution-manager.py lines
37-42) combined with the handler of main (lines 395-399): any
RequestException raised by the request, by raise_for_status or by
response.json() is printed as an API error and the process exits with
status 1. -/
def ExecutionManager_get (transport : Except String Response) : ReqResult :=
  match transport with
  | .error msg => .exit1 ("API Error: " ++ msg) none
  | .ok r =>
    if 400 ≤ r.status ∧ r.status < 600 then
      .exit1 ("API Error: HTTP " ++ toString r.status) none
    else
      match r.jsonBody with
      | some j => .ok j
      | none => .exit1 "API Error: JSONDecodeError" none

/-- Embedding of N8nClient.trigger_webhook (workflow-crud.py lines
120-128): the response status is never checked; whatever the status,
the JSON body is returned when it parses, and otherwise a dictionary of
the raw text and the status code is returned.  Only a transport-level
exception escapes. -/
def trigger_webhook (transport : Except String Response) : TriggerResult :=
  match transport with
  | .error msg => .uncaught msg
  | .ok r =>
    match r.jsonBody with
    | some j => .ok j
    | none => .ok (Json.obj
        [("response", Json.str r.text), ("status_code", Json.num r.status)])

/-- Embedding of the URL built by trigger_webhook (workflow-crud.py
lines 122-123). -/
def webhook_url (base_url path : String) (test : Bool) : String :=
  base_url ++ "/" ++ (if test then "webhook-test" else "webhook") ++ "/" ++ path

/-- An outgoing HTTP request: method, URL and the custom headers the
script attaches to it. -/
structure HttpRequest where
  method : String
  url : String
  headers : List (String × String)

/-- Embedding of the session headers installed by N8nClient under its
init (workflow-crud.py lines 33-37). -/
def session_headers (api_key : String) : List (String × String) :=
  [("X-N8N-API-KEY", api_key), ("Content-Type", "application/json")]

/-- The request issued by every operation that goes through
self.session.request (workflow-crud.py line 43): it carries the session
headers, hence the API key. -/
def api_request (api_key base_url method endpoint : String) : HttpRequest :=
  { method := method, url := base_url ++ endpoint,
    headers := session_headers api_key }

/-- The request issued by trigger_webhook (workflow-crud.py line 124):
requests.post is called directly, not through the session, so no custom
header is attached. -/
def webhook_request (base_url path : String) (test : Bool) : HttpRequest :=
  { method := "POST", url := webhook_url base_url path test, headers := [] }

/-- State held across iterations of the watch loop of cmd_watch
(execution-manager.py lines 310-311): the seen_ids set, modelled as the
list of inserted ids, and whether last_check has been set (it is None
until the end of the first poll). -/
structure WatchState where
  seen : List String
  firstDone : Bool

/-- Embedding of the per-execution body of the watch loop
(execution-manager.py lines 320-328), applied to one fetched execution
represented by its id: an unseen id is added to seen_ids and printed
only when last_check is already set.  The id is what identifies the
printed line; its other rendered fields do not affect which executions
are announced. -/
def watchStepExec : WatchState × List String → String → WatchState × List String
  | (st, out), i =>
    if i ∈ st.seen then (st, out)
    else (⟨i :: st.seen, st.firstDone⟩,
      if st.firstDone then out ++ [i] else out)

/-- Embedding of one iteration of the watch loop (execution-manager.py
lines 315-330): the fetched batch is processed in reversed order and
last_check is set afterwards.  The second component collects the ids
printed during the iteration, in order. -/
def watchBatch (st : WatchState) (batch : List String) :
    WatchState × List String :=
  let r := batch.reverse.foldl watchStepExec (st, [])
  (⟨r.1.seen, true⟩, r.2)

/-- The watch loop run over a finite prefix of poll results: the list of
ids printed at each poll. -/
def watchRun : WatchState → List (List String) → List (List String)
  | _, [] => []
  | st, b :: bs =>
    let r := watchBatch st b
    r.2 :: watchRun r.1 bs

/-- The watch session from its initial state: empty seen_ids,
last_check still None. -/
def watchOutputs (polls : List (List String)) : List (List String) :=
  watchRun ⟨[], false⟩ polls

/-- Helper: with both inputs present, nonempty and parsable,
format_duration reduces to the tier rendering of the difference. -/
theorem format_duration_eq_formatDelta (parseIso : String → Option ℤ)
    (s0 t0 : String) (a b : ℤ) (hs : s0 ≠ "") (ht : t0 ≠ "")
    (hpa : parseIso (replaceChar s0 'Z' "+00:00") = some a)
    (hpb : parseIso (replaceChar t0 'Z' "+00:00") = some b) :
    format_duration parseIso (some s0) (some t0) = formatDelta (b - a) := by
  unfold format_duration
  have hse : s0.isEmpty = false := by
    rw [← Bool.not_eq_true]
    exact fun h => hs ((String.isEmpty_iff s0).mp h)
  have hte : t0.isEmpty = false := by
    rw [← Bool.not_eq_true]
    exact fun h => ht ((String.isEmpty_iff t0).mp h)
  have hs' : pyTruthy (some s0) = true := by simp [pyTruthy, hse]
  have ht' : pyTruthy (some t0) = true := by simp [pyTruthy, hte]
  simp only [hs', ht', Option.getD_some, Bool.not_true, Bool.or_self,
    Bool.false_eq_true, if_false, hpa, hpb]

/-- Claim C1: for parsable timestamps with start not after stop, format_duration
follows the fixed tier policy: a difference under one second renders as an
integer count of milliseconds with suffix ms, a difference of at least one
second but under sixty renders as seconds with exactly one decimal digit
and suffix s, and any larger difference renders as whole minutes followed
by the whole remaining seconds in the shape Xm Ys. -/
theorem format_duration_tier_policy (parseIso : String → Option ℤ)
    (s0 t0 : String) (a b : ℤ) (hs : s0 ≠ "") (ht : t0 ≠ "")
    (hpa : parseIso (replaceChar s0 'Z' "+00:00") = some a)
    (hpb : parseIso (replaceChar t0 'Z' "+00:00") = some b)
    (hab : a ≤ b) :
    (b - a < 1000000 →
      ∃ n : ℤ, 0 ≤ n ∧
        format_duration parseIso (some s0) (some t0) = toString n ++ "ms") ∧
    (1000000 ≤ b - a → b - a < 60000000 →
      ∃ u v : ℤ, 0 ≤ u ∧ 0 ≤ v ∧ v < 10 ∧ (toString v).length = 1 ∧
        format_duration parseIso (some s0) (some t0) =
          toString u ++ "." ++ toString v ++ "s") ∧
    (60000000 ≤ b - a →
      ∃ m s : ℤ, m = (b - a) / 60000000 ∧ s = ((b - a) / 1000000) % 60 ∧
        0 ≤ m ∧ 0 ≤ s ∧ s < 60 ∧
        format_duration parseIso (some s0) (some t0) =
          toString m ++ "m " ++ toString s ++ "s") := by
  have hred := format_duration_eq_formatDelta parseIso s0 t0 a b hs ht hpa hpb
  have hd : 0 ≤ b - a := by omega
  refine ⟨?_, ?_, ?_⟩
  · intro h1
    refine ⟨Int.tdiv (b - a) 1000, Int.tdiv_nonneg hd (by omega), ?_⟩
    rw [hred, formatDelta, if_pos h1]
  · intro h1 h2
    refine ⟨((b - a) + 50000) / 100000 / 10, ((b - a) + 50000) / 100000 % 10,
      by omega, by omega, by omega, ?_, ?_⟩
    · have hv0 : 0 ≤ ((b - a) + 50000) / 100000 % 10 := by omega
      have hv9 : ((b - a) + 50000) / 100000 % 10 < 10 := by omega
      interval_cases h : ((b - a) + 50000) / 100000 % 10 <;> rfl
    · rw [hred, formatDelta, if_neg (by omega), if_pos h2]
  · intro h1
    refine ⟨(b - a) / 60000000, ((b - a) / 1000000) % 60, rfl, rfl,
      by omega, by omega, by omega, ?_⟩
    rw [hred, formatDelta, if_neg (by omega), if_neg (by omega)]

/-- Witness for C1 at a concrete input in the one-decimal tier. -/
theorem format_duration_tier_policy_witness :
    ∃ u v : ℤ, 0 ≤ u ∧ 0 ≤ v ∧ v < 10 ∧ (toString v).length = 1 ∧
      format_duration (fun s => if s = "a" then some 0 else some 1500000)
        (some "a") (some "b") = toString u ++ "." ++ toString v ++ "s" :=
  (format_duration_tier_policy (fun s => if s = "a" then some 0 else some 1500000)
    "a" "b" 0 1500000 (by decide) (by decide) (by decide) (by decide)
    (by decide)).2.1 (by decide) (by decide)

/-- Claim C8: when either timestamp is missing or empty, or either string fails
to parse, format_duration returns the placeholder; being a total Lean
function it raises nothing, mirroring the except branch of the source. -/
theorem format_duration_invalid_input (parseIso : String → Option ℤ)
    (start stop : Option String)
    (h : pyTruthy start = false ∨ pyTruthy stop = false ∨
      parseIso (replaceChar (start.getD "") 'Z' "+00:00") = none ∨
      parseIso (replaceChar (stop.getD "") 'Z' "+00:00") = none) :
    format_duration parseIso start stop = "N/A" := by
  unfold format_duration
  by_cases hs : pyTruthy start
  · by_cases ht : pyTruthy stop
    · simp only [hs, ht] at h ⊢
      rcases h with h | h | h | h
      · exact absurd h (by simp)
      · exact absurd h (by simp)
      · simp [h]
      · cases hx : parseIso (replaceChar (start.getD "") 'Z' "+00:00") <;> simp [h]
    · simp [ht]
  · simp [hs]

/-- Witness for C8 at a concrete unparsable input. -/
theorem format_duration_invalid_input_witness :
    format_duration (fun _ => none) (some "bad") (some "2024") = "N/A" :=
  format_duration_invalid_input (fun _ => none) (some "bad") (some "2024")
    (Or.inr (Or.inr (Or.inl rfl)))

/-- Helper: unrolling the item-count fold from any accumulator. -/
theorem count_items_foldl (branches : List (List Json)) (n : ℕ) :
    branches.foldl (fun acc b => if b.isEmpty then acc else acc + b.length) n =
      n + ((branches.filter (fun b => !b.isEmpty)).map List.length).sum := by
  induction branches generalizing n with
  | nil => simp
  | cons b bs ih =>
    rcases Bool.eq_false_or_eq_true b.isEmpty with hb | hb
    · simp [List.filter_cons, hb, ih]
    · simp [List.filter_cons, hb, ih]
      omega

/-- Claim C2: the item count that cmd_debug reports for a node equals the sum
of the lengths of the non-empty branches of its output, and on the
branches [[item1, item2], [], [item3]] it reports 3. -/
theorem count_items_out_spec :
    (∀ branches : List (List Json),
      count_items_out (some branches) =
        ((branches.filter (fun b => !b.isEmpty)).map List.length).sum) ∧
    count_items_out (some [[Json.num 1, Json.num 2], [], [Json.num 3]]) = 3 := by
  constructor
  · intro branches
    rw [count_items_out]
    by_cases h : branches.isEmpty
    · rw [if_pos h]
      rw [List.isEmpty_iff] at h
      simp [h]
    · rw [if_neg h, count_items_foldl, Nat.zero_add]
  · rfl

/-- Claim C3: cmd_debug lists the nodes of the report in lexicographic order
of node name: the printed name sequence is sorted, the sorted triples
are a permutation of the accumulated ones, and any run-data mapping
whose truthy nodes carry the same multiset of names, whatever its
insertion order and executionTime values, yields the identical name
sequence. -/
theorem cmd_debug_sorted_by_name (rd rd2 : List (String × List NodeAttempt))
    (hperm : ((node_times rd2).map (fun t => t.1)).Perm
      ((node_times rd).map (fun t => t.1))) :
    ((sorted_node_times rd).map (fun t => t.1)).Sorted (· ≤ ·) ∧
    (sorted_node_times rd).Perm (node_times rd) ∧
    (sorted_node_times rd2).map (fun t => t.1) =
      (sorted_node_times rd).map (fun t => t.1) := by
  haveI instT : IsTotal (String × ℤ × NodeAttempt)
      (fun x y => x.1.data ≤ y.1.data) := ⟨fun a b => le_total a.1.data b.1.data⟩
  haveI instTr : IsTrans (String × ℤ × NodeAttempt)
      (fun x y => x.1.data ≤ y.1.data) := ⟨fun a b c hab hbc => le_trans hab hbc⟩
  haveI instAnti : IsAntisymm String (· ≤ ·) := ⟨fun a b => le_antisymm⟩
  have hsorted : ∀ l : List (String × List NodeAttempt),
      ((sorted_node_times l).map (fun t => t.1)).Sorted (· ≤ ·) := by
    intro l
    have hins := List.sorted_insertionSort
      (fun x y : String × ℤ × NodeAttempt => x.1.data ≤ y.1.data) (node_times l)
    exact List.Pairwise.map (fun t : String × ℤ × NodeAttempt => t.1)
      (fun a b h => String.le_iff_toList_le.mpr h) hins
  have hp : ∀ l : List (String × List NodeAttempt),
      (sorted_node_times l).Perm (node_times l) :=
    fun l => List.perm_insertionSort _ _
  refine ⟨hsorted rd, hp rd, ?_⟩
  exact List.eq_of_perm_of_sorted
    (((hp rd2).map (fun t => t.1)).trans
      (hperm.trans (((hp rd).map (fun t => t.1)).symm)))
    (hsorted rd2) (hsorted rd)

/-- Witness for C3: run data inserted as B, A, C prints A, B, C, and a
differently ordered run data with different execution times prints the
same sequence. -/
theorem cmd_debug_sorted_by_name_witness :
    (sorted_node_times [("B", [⟨some 7, false, none⟩]),
        ("A", [⟨some 5, false, none⟩]),
        ("C", [⟨some 1, false, none⟩])]).map (fun t => t.1) = ["A", "B", "C"] ∧
    (sorted_node_times [("A", [⟨some 9, false, none⟩]),
        ("C", [⟨some 2, false, none⟩]),
        ("B", [⟨some 3, false, none⟩])]).map (fun t => t.1) =
      (sorted_node_times [("B", [⟨some 7, false, none⟩]),
        ("A", [⟨some 5, false, none⟩]),
        ("C", [⟨some 1, false, none⟩])]).map (fun t => t.1) :=
  ⟨by decide,
    (cmd_debug_sorted_by_name
      [("B", [⟨some 7, false, none⟩]), ("A", [⟨some 5, false, none⟩]),
        ("C", [⟨some 1, false, none⟩])]
      [("A", [⟨some 9, false, none⟩]), ("C", [⟨some 2, false, none⟩]),
        ("B", [⟨some 3, false, none⟩])]
      (by decide)).2.2⟩

/-- Claim C4: with S executions of status success and E of status error, the
statistics aggregator reports the rate S / (S + E) times 100 exactly when
S + E is positive, omits it when S + E is zero, and an execution in any
other status leaves the reported rate unchanged. -/
theorem cmd_stats_success_rate (execs : List ExecutionRec) (S E : ℕ)
    (hS : status_count execs "success" = S)
    (hE : status_count execs "error" = E) :
    (0 < S + E →
      success_rate execs = some ((S : ℚ) / ((S : ℚ) + (E : ℚ)) * 100)) ∧
    (S + E = 0 → success_rate execs = none) ∧
    (∀ ex : ExecutionRec, statusOf ex ≠ "success" → statusOf ex ≠ "error" →
      success_rate (ex :: execs) = success_rate execs) := by
  refine ⟨?_, ?_, ?_⟩
  · intro hpos
    rw [success_rate, hS, hE, if_pos hpos]
  · intro hzero
    rw [success_rate, hS, hE, if_neg (by omega)]
  · intro ex h1 h2
    have hbs : ("success" == statusOf ex) = false :=
      beq_eq_false_iff_ne.mpr (Ne.symm h1)
    have hbe : ("error" == statusOf ex) = false :=
      beq_eq_false_iff_ne.mpr (Ne.symm h2)
    have hcs : status_count (ex :: execs) "success" =
        status_count execs "success" := by
      simp [status_count, List.count_cons, hbs, h1]
    have hce : status_count (ex :: execs) "error" =
        status_count execs "error" := by
      simp [status_count, List.count_cons, hbe, h2]
    rw [success_rate, success_rate, hcs, hce]

/-- Witness for C4 with one success, one error and one waiting
execution. -/
theorem cmd_stats_success_rate_witness :
    success_rate [⟨some "1", some "success", none, none, none⟩,
      ⟨some "2", some "error", none, none, none⟩] =
      some (((1 : ℕ) : ℚ) / (((1 : ℕ) : ℚ) + ((1 : ℕ) : ℚ)) * 100) ∧
    success_rate [⟨some "3", some "waiting", none, none, none⟩] = none :=
  ⟨(cmd_stats_success_rate
      [⟨some "1", some "success", none, none, none⟩,
        ⟨some "2", some "error", none, none, none⟩] 1 1
      (by decide) (by decide)).1 (by decide),
    (cmd_stats_success_rate [⟨some "3", some "waiting", none, none, none⟩] 0 0
      (by decide) (by decide)).2.1 rfl⟩

/-- Counterexample for C5: a workflow record with every field except id
present makes the formatter fail (KeyError on the direct index
workflow[id]), so a missing field is not always tolerated. -/
theorem format_workflow_missing_id_fails :
    format_workflow ⟨none, some "Test", some true, some []⟩ = none := rfl

/-- Amended claim C5: the formatters tolerate a missing value for every field
they read through .get, but the identifier is indexed directly: the
workflow formatter succeeds exactly when both id and name are present,
and the cmd_list row formatter succeeds exactly when id is present;
whatever the remaining fields, the operation completes with placeholder
or default text in their place. -/
theorem formatters_tolerate_missing_fields (w : WorkflowRec)
    (parseIso : String → Option ℤ) (ex : ExecutionRec) :
    ((∃ s, format_workflow w = some s) ↔ (w.id ≠ none ∧ w.name ≠ none)) ∧
    ((∃ s, cmd_list_row parseIso ex = some s) ↔ ex.id ≠ none) := by
  constructor
  · constructor
    · rintro ⟨s, hs⟩
      rw [format_workflow] at hs
      cases hid : w.id <;> cases hname : w.name <;>
        simp [hid, hname] at hs ⊢
    · rintro ⟨hid, hname⟩
      cases hi : w.id with
      | none => exact absurd hi hid
      | some wid =>
        cases hn : w.name with
        | none => exact absurd hn hname
        | some wname => exact ⟨_, by rw [format_workflow, hi, hn]⟩
  · constructor
    · rintro ⟨s, hs⟩
      rw [cmd_list_row] at hs
      cases hid : ex.id <;> simp [hid] at hs ⊢
    · intro hid
      cases hi : ex.id with
      | none => exact absurd hi hid
      | some i => exact ⟨_, by rw [cmd_list_row, hi]⟩

/-- Counterexample for C6: a webhook trigger that receives a 500 response
completes as a normal result carrying the JSON error body, with exit
status zero, instead of reporting a failure and terminating nonzero. -/
theorem trigger_webhook_500_not_fatal :
    trigger_webhook (Except.ok ⟨500, some (Json.str "Internal Server Error"),
      "Internal Server Error"⟩) =
      TriggerResult.ok (Json.str "Internal Server Error") := rfl

/-- Amended claim C6: every operation routed through the request helpers
reports a network error or a 4xx/5xx status, including the JSON or text
error body when a response is attached, and exits nonzero, with no
retry (the transport is consulted exactly once); the webhook trigger is
the exception: it never raises for status, turning any response,
whatever its status code, into a normal zero-exit result, and only a
transport-level exception aborts it (nonzero, via traceback). -/
theorem request_failures_fatal (msg : String) (r : Response) :
    (N8nClient_request (Except.error msg) = ReqResult.exit1 msg none) ∧
    (400 ≤ r.status → r.status < 600 →
      N8nClient_request (Except.ok r) =
        ReqResult.exit1 ("HTTP " ++ toString r.status)
          (some (match r.jsonBody with
            | some j => Sum.inl j
            | none => Sum.inr r.text))) ∧
    (ExecutionManager_get (Except.error msg) =
      ReqResult.exit1 ("API Error: " ++ msg) none) ∧
    (400 ≤ r.status → r.status < 600 →
      ExecutionManager_get (Except.ok r) =
        ReqResult.exit1 ("API Error: HTTP " ++ toString r.status) none) ∧
    (∃ v, trigger_webhook (Except.ok r) = TriggerResult.ok v) ∧
    (trigger_webhook (Except.error msg) = TriggerResult.uncaught msg) := by
  refine ⟨rfl, ?_, rfl, ?_, ?_, rfl⟩
  · intro h4 h6
    rw [N8nClient_request, if_pos ⟨h4, h6⟩]
  · intro h4 h6
    rw [ExecutionManager_get, if_pos ⟨h4, h6⟩]
  · rw [trigger_webhook]
    cases r.jsonBody <;> exact ⟨_, rfl⟩

/-- Witness for C6 as amended, at a 404 response with unparsable body
and at a network failure. -/
theorem request_failures_fatal_witness :
    N8nClient_request (Except.ok ⟨404, none, "not found"⟩) =
      ReqResult.exit1 ("HTTP " ++ toString (404 : ℕ))
        (some (Sum.inr "not found")) ∧
    trigger_webhook (Except.error "connection refused") =
      TriggerResult.uncaught "connection refused" :=
  ⟨(request_failures_fatal "connection refused" ⟨404, none, "not found"⟩).2.1
      (by decide) (by decide),
    (request_failures_fatal "connection refused"
      ⟨404, none, "not found"⟩).2.2.2.2.2⟩

/-- Claim C7: with test set the webhook trigger targets the test route
variant, and without it the production route variant. -/
theorem trigger_webhook_route (base p : String) :
    webhook_url base p true = base ++ "/webhook-test/" ++ p ∧
    webhook_url base p false = base ++ "/webhook/" ++ p := by
  constructor <;>
  · apply String.ext
    simp [webhook_url, String.data_append, List.append_assoc]

/-- Claim C10: the webhook trigger request carries no X-N8N-API-KEY header,
while every request through the authenticated session carries the API
key under that header. -/
theorem webhook_request_has_no_api_key (api_key base_url method endpoint
    path : String) (test : Bool) :
    ("X-N8N-API-KEY" ∉ (webhook_request base_url path test).headers.map
      Prod.fst) ∧
    (("X-N8N-API-KEY", api_key) ∈
      (api_request api_key base_url method endpoint).headers) := by
  constructor
  · simp [webhook_request]
  · simp [api_request, session_headers]

/-- Helper: full characterization of the inner fold of a watch
iteration, from an arbitrary starting state and printed accumulator. -/
theorem watchFold_spec (l : List String) : ∀ (st : WatchState) (out : List String),
    (l.foldl watchStepExec (st, out)).1.firstDone = st.firstDone ∧
    (∀ y, y ∈ (l.foldl watchStepExec (st, out)).1.seen ↔ y ∈ st.seen ∨ y ∈ l) ∧
    (st.firstDone = false → (l.foldl watchStepExec (st, out)).2 = out) ∧
    (st.firstDone = true → ∀ y, y ∈ (l.foldl watchStepExec (st, out)).2 ↔
      y ∈ out ∨ (y ∈ l ∧ y ∉ st.seen)) ∧
    (out.Nodup → (∀ y ∈ out, y ∈ st.seen) →
      (l.foldl watchStepExec (st, out)).2.Nodup ∧
        ∀ y ∈ (l.foldl watchStepExec (st, out)).2,
          y ∈ (l.foldl watchStepExec (st, out)).1.seen) := by
  induction l with
  | nil =>
    intro st out
    refine ⟨rfl, by simp, fun _ => rfl, fun _ y => by simp, fun hnd hcl => ⟨hnd, hcl⟩⟩
  | cons i l ih =>
    intro st out
    rw [List.foldl_cons]
    by_cases hmem : i ∈ st.seen
    · rw [watchStepExec, if_pos hmem]
      obtain ⟨h1, h2, h3, h4, h5⟩ := ih st out
      refine ⟨h1, ?_, h3, ?_, h5⟩
      · intro y
        rw [h2]
        constructor
        · rintro (h | h)
          · exact Or.inl h
          · exact Or.inr (List.mem_cons_of_mem _ h)
        · rintro (h | h)
          · exact Or.inl h
          · rcases List.mem_cons.mp h with rfl | h
            · exact Or.inl hmem
            · exact Or.inr h
      · intro hfd y
        rw [h4 hfd y]
        constructor
        · rintro (h | ⟨h, hn⟩)
          · exact Or.inl h
          · exact Or.inr ⟨List.mem_cons_of_mem _ h, hn⟩
        · rintro (h | ⟨h, hn⟩)
          · exact Or.inl h
          · rcases List.mem_cons.mp h with rfl | h
            · exact absurd hmem hn
            · exact Or.inr ⟨h, hn⟩
    · rw [watchStepExec, if_neg hmem]
      cases hfd : st.firstDone with
      | false =>
        simp only [Bool.false_eq_true, if_false]
        obtain ⟨h1, h2, h3, h4, h5⟩ := ih ⟨i :: st.seen, false⟩ out
        refine ⟨h1, ?_, fun _ => h3 rfl, ?_, fun hnd hcl => h5 hnd ?_⟩
        · intro y
          rw [h2]
          simp only [List.mem_cons]
          tauto
        · intro habs
          exact absurd habs (by simp)
        · intro y hy
          exact List.mem_cons_of_mem _ (hcl y hy)
      | true =>
        simp only [eq_self_iff_true, if_true]
        obtain ⟨h1, h2, h3, h4, h5⟩ := ih ⟨i :: st.seen, true⟩ (out ++ [i])
        refine ⟨h1, ?_, ?_, ?_, ?_⟩
        · intro y
          rw [h2]
          simp only [List.mem_cons]
          tauto
        · intro habs
          exact absurd habs (by simp)
        · intro _ y
          rw [h4 rfl y]
          simp only [List.mem_append, List.mem_singleton, List.mem_cons]
          by_cases hy : y = i
          · subst hy
            tauto
          · tauto
        · intro hnd hcl
          refine h5 ?_ ?_
          · refine List.Nodup.append hnd (List.nodup_singleton i) ?_
            intro y hy hyi
            rw [List.mem_singleton] at hyi
            subst hyi
            exact hmem (hcl y hy)
          · intro y hy
            rcases List.mem_append.mp hy with h | h
            · exact List.mem_cons_of_mem _ (hcl y h)
            · rw [List.mem_singleton] at h
              subst h
              exact List.mem_cons_self _ _

/-- Helper: characterization of one full watch iteration. -/
theorem watchBatch_spec (st : WatchState) (b : List String) :
    (watchBatch st b).1.firstDone = true ∧
    (∀ y, y ∈ (watchBatch st b).1.seen ↔ y ∈ st.seen ∨ y ∈ b) ∧
    (st.firstDone = false → (watchBatch st b).2 = []) ∧
    (st.firstDone = true →
      ∀ y, y ∈ (watchBatch st b).2 ↔ y ∈ b ∧ y ∉ st.seen) ∧
    ((watchBatch st b).2.Nodup ∧
      ∀ y ∈ (watchBatch st b).2, y ∈ (watchBatch st b).1.seen) := by
  obtain ⟨h1, h2, h3, h4, h5⟩ := watchFold_spec b.reverse st []
  obtain ⟨h5a, h5b⟩ := h5 List.nodup_nil (by simp)
  refine ⟨rfl, ?_, h3, ?_, h5a, h5b⟩
  · intro y
    rw [watchBatch] at *
    simpa [List.mem_reverse] using h2 y
  · intro hfd y
    rw [watchBatch]
    simpa [List.mem_reverse] using h4 hfd y

/-- Helper: the run prints one list per poll. -/
theorem watchRun_length (polls : List (List String)) :
    ∀ st, (watchRun st polls).length = polls.length := by
  induction polls with
  | nil => intro st; rfl
  | cons b bs ih => intro st; simp [watchRun, ih]

/-- Helper: from any state that has completed its first poll, the ids
printed at poll k are exactly those of poll k that occur neither in an
earlier poll nor in the starting seen set. -/
theorem watchRun_getD (polls : List (List String)) :
    ∀ st, st.firstDone = true → ∀ k, k < polls.length → ∀ x,
      (x ∈ (watchRun st polls).getD k [] ↔
        x ∈ polls.getD k [] ∧ x ∉ (polls.take k).flatten ∧ x ∉ st.seen) := by
  induction polls with
  | nil =>
    intro st _ k hk
    exact absurd hk (by simp)
  | cons b bs ih =>
    intro st hfd k hk x
    obtain ⟨g1, g2, g3, g4, g5⟩ := watchBatch_spec st b
    match k with
    | 0 =>
      simp only [watchRun, List.getD_cons_zero, List.take_zero, List.flatten_nil]
      rw [g4 hfd x]
      simp
    | k + 1 =>
      simp only [watchRun, List.getD_cons_succ, List.take_succ_cons,
        List.flatten_cons]
      rw [ih (watchBatch st b).1 g1 k (by simpa using hk) x, g2 x]
      simp only [List.mem_append]
      constructor
      · rintro ⟨hx, hflat, hseen⟩
        exact ⟨hx, fun h => hseen (by tauto), fun h => hseen (Or.inl h)⟩
      · rintro ⟨hx, hflat, hseen⟩
        refine ⟨hx, fun h => hflat.elim (by tauto), ?_⟩
        rintro (h | h)
        · exact hseen h
        · exact hflat (Or.inl h)

/-- Helper: across any run, no id is ever printed twice, and nothing
already seen at the start is printed. -/
theorem watchRun_flatten_nodup (polls : List (List String)) :
    ∀ st, (watchRun st polls).flatten.Nodup ∧
      ∀ y ∈ (watchRun st polls).flatten, y ∉ st.seen := by
  induction polls with
  | nil => intro st; simp [watchRun]
  | cons b bs ih =>
    intro st
    obtain ⟨g1, g2, g3, g4, ⟨g5a, g5b⟩⟩ := watchBatch_spec st b
    obtain ⟨i1, i2⟩ := ih (watchBatch st b).1
    simp only [watchRun, List.flatten_cons]
    constructor
    · refine List.Nodup.append g5a i1 ?_
      intro y hy hy2
      exact i2 y hy2 (g5b y hy)
    · intro y hy
      rcases List.mem_append.mp hy with h | h
      · cases hfd : st.firstDone
        · rw [g3 hfd] at h
          exact absurd h (List.not_mem_nil y)
        · exact ((g4 hfd y).mp h).2
      · intro hseen
        exact i2 y h ((g2 y).mpr (Or.inl hseen))

/-- Claim C9: in the watch loop, nothing fetched on the very first poll is
printed, and on every later poll an id is printed exactly when it did
not appear in any earlier poll of the session; consequently no id is
printed twice in a session. -/
theorem cmd_watch_spec (polls : List (List String)) (k : ℕ)
    (hk : k < polls.length) (x : String) :
    ((watchOutputs polls).getD 0 [] = []) ∧
    (1 ≤ k → (x ∈ (watchOutputs polls).getD k [] ↔
      x ∈ polls.getD k [] ∧ x ∉ (polls.take k).flatten)) ∧
    ((watchOutputs polls).flatten.Nodup) := by
  match polls with
  | [] => exact absurd hk (by simp)
  | b :: bs =>
    obtain ⟨g1, g2, g3, g4, g5⟩ := watchBatch_spec ⟨[], false⟩ b
    refine ⟨?_, ?_, ?_⟩
    · simp only [watchOutputs, watchRun, List.getD_cons_zero]
      exact g3 rfl
    · intro hk1
      match k, hk1 with
      | k + 1, _ =>
        simp only [watchOutputs, watchRun, List.getD_cons_succ,
          List.take_succ_cons, List.flatten_cons]
        rw [watchRun_getD bs (watchBatch ⟨[], false⟩ b).1 g1 k
          (by simpa using hk) x]
        simp only [List.mem_append]
        constructor
        · rintro ⟨hx, hflat, hseen⟩
          refine ⟨hx, ?_⟩
          rintro (h | h)
          · exact hseen ((g2 x).mpr (by simp [h]))
          · exact hflat h
        · rintro ⟨hx, hflat⟩
          refine ⟨hx, fun h => hflat (Or.inr h), ?_⟩
          intro h
          rcases (g2 x).mp h with h | h
          · exact absurd h (List.not_mem_nil x)
          · exact hflat (Or.inl h)
    · exact (watchRun_flatten_nodup (b :: bs) ⟨[], false⟩).1

/-- Witness for C9: with a first poll containing a, and a second poll
containing a and b, the first poll prints nothing and b is printed at
the second poll exactly because it is new. -/
theorem cmd_watch_spec_witness :
    ((watchOutputs [["a"], ["a", "b"]]).getD 0 [] = []) ∧
    (1 ≤ 1 → (("b" ∈ (watchOutputs [["a"], ["a", "b"]]).getD 1 []) ↔
      ("b" ∈ [["a"], ["a", "b"]].getD 1 [] ∧
        "b" ∉ ([["a"], ["a", "b"]].take 1).flatten))) ∧
    ((watchOutputs [["a"], ["a", "b"]]).flatten.Nodup) :=
  cmd_watch_spec [["a"], ["a", "b"]] 1 (by decide) "b"

end N8n
